import Mathlib

/-!
Verification of the core logic of the appimage2rpm repository against
its specification.  Python strings are embedded as lists of Unicode code
points (`List Nat`); Python `set`s are embedded as duplicate-free lists
built by insertion order; fallible code returns `Option`/`Except`.

Sources embedded:
* `src/appimage2rpm/core/builder.py` — `RPMBuilder.__init__`,
  `RPMBuilder._sanitize_name`, `RPMBuilder.select_best_icon`,
  `RPMBuilder.build` (artifact glob + cleanup).
* `src/appimage2rpm/core/distro_profile.py` — `detect_current_distro`.
* `src/appimage2rpm/core/dependency_analyzer.py` —
  `analyze_dependencies`, `convert_dependencies_to_rpm_requires`.
* `src/appimage2rpm/core/controller.py` — `convert_appimage`.
* legacy `rpm_utils.py` — `RPMBuilder._normalize_name`,
  `RPMBuilder.build_rpm` (artifact glob), and legacy `appimage2rpm.py` —
  `ConversionThread.run` (temp-dir lifecycle).
-/

namespace AppImage2RPM

/-- Code points of a Lean string, used to embed Python strings. -/
def strCodes (s : String) : List Nat := s.toList.map Char.toNat

/-- Character class `[a-zA-Z0-9_.-]` of `RPMBuilder._sanitize_name`
(builder.py line 545): ASCII letters, digits, underscore 95, dot 46,
dash 45.  The Python regex replaces every code point outside it. -/
def isAllowed (c : Nat) : Bool :=
  (65 ≤ c && c ≤ 90) || (97 ≤ c && c ≤ 122) || (48 ≤ c && c ≤ 57) ||
  c == 95 || c == 46 || c == 45

/-- ASCII decimal digit, the `str.isdigit` test on the (ASCII) first
character of the substituted name. -/
def isDigitCode (c : Nat) : Bool := 48 ≤ c && c ≤ 57

/-- Lowering of one character by `str.lower`; only ASCII uppercase occurs after the
regex substitution, so ASCII lowering is the exact behaviour. -/
def lowerCode (c : Nat) : Nat := if 65 ≤ c && c ≤ 90 then c + 32 else c

/-- One character of the substitution `re.sub` with pattern class
`[^a-zA-Z0-9_.-]` and replacement dash (builder.py line 545). -/
def subChar (c : Nat) : Nat := if isAllowed c then c else 45

/-- The literal prefix `"app-"` prepended by `_sanitize_name`. -/
def appPrefix : List Nat := strCodes "app-"

/-- Embedding of `RPMBuilder._sanitize_name` (builder.py lines 534-551): substitute
disallowed characters by `-`, prepend `app-` when the result starts with
a digit or `-`, then lowercase.  Python raises `IndexError` on the empty
string (`sanitized[0]`), embedded as `none`.  The substitution is
per-character, so the match is written structurally on the input. -/
def sanitizeName : List Nat → Option (List Nat)
  | [] => none
  | c0 :: rest =>
    let c := subChar c0
    let cs := rest.map subChar
    let prefixed := if isDigitCode c || c == 45 then appPrefix ++ (c :: cs) else c :: cs
    some (prefixed.map lowerCode)

/-- String-level wrapper for readable statements. -/
def sanitizeNameStr (s : String) : Option (List Nat) := sanitizeName (strCodes s)

/-- Character class `[a-zA-Z0-9._+-]` quoted by the specification: like
the class in the code but with plus 43 allowed and underscore also
allowed. -/
def specAllowed (c : Nat) : Bool :=
  (65 ≤ c && c ≤ 90) || (97 ≤ c && c ≤ 122) || (48 ≤ c && c ≤ 57) ||
  c == 46 || c == 95 || c == 43 || c == 45

/-- Collapse every run of repeated `-` (45) into a single one. -/
def collapseDashes (s : List Nat) : List Nat :=
  s.foldr (fun c acc => if c == 45 && acc.head? == some 45 then acc else c :: acc) []

/-- Trim leading and trailing `-` (45). -/
def trimDashes (s : List Nat) : List Nat :=
  ((s.dropWhile (· == 45)).reverse.dropWhile (· == 45)).reverse

/-- The sanitization pipeline exactly as the specification words it:
replace characters outside `[a-zA-Z0-9._+-]` by `-`, collapse repeated
`-`, trim leading/trailing `-`, lowercase, and prepend the fixed prefix
when the result starts with a digit or `-`. -/
def specSanitize (name : List Nat) : List Nat :=
  let s1 := name.map (fun c => if specAllowed c then c else 45)
  let s2 := trimDashes (collapseDashes s1)
  let s3 := s2.map lowerCode
  match s3 with
  | [] => []
  | c :: cs => if isDigitCode c || c == 45 then appPrefix ++ (c :: cs) else c :: cs

/-- String-level wrapper for the specification pipeline. -/
def specSanitizeStr (s : String) : List Nat := specSanitize (strCodes s)

example : sanitizeNameStr "Test App" = some (strCodes "test-app") := by decide
example : sanitizeNameStr "1App" = some (strCodes "app-1app") := by decide
example : sanitizeNameStr "App.With.Dots" = some (strCodes "app.with.dots") := by decide
example : sanitizeNameStr "-App" = some (strCodes "app--app") := by decide
example : sanitizeNameStr "a  b" = some (strCodes "a--b") := by decide
example : specSanitizeStr "a  b" = strCodes "a-b" := by decide

/-- The sanitization pipeline as the code actually implements it:
character class `[a-zA-Z0-9_.-]` (underscore kept, plus replaced), no
collapsing of repeated `-`, no trimming; the fixed prefix when the
substituted string starts with a digit or `-`; then lowercase; Python
raises `IndexError` on the empty string. -/
def specSanitizeAmended (name : List Nat) : Option (List Nat) :=
  match name.map (fun c => if isAllowed c then c else 45) with
  | [] => none
  | c :: cs =>
    some ((if isDigitCode c || c == 45 then appPrefix ++ (c :: cs) else c :: cs).map lowerCode)

section CharLemmas

theorem isAllowed_subChar (c : Nat) : isAllowed (subChar c) = true := by
  unfold subChar
  by_cases h : isAllowed c = true
  · rw [if_pos h]; exact h
  · rw [if_neg h]; decide

theorem subChar_of_isAllowed {c : Nat} (h : isAllowed c = true) : subChar c = c := by
  unfold subChar
  rw [if_pos h]

theorem isAllowed_lowerCode {c : Nat} (h : isAllowed c = true) :
    isAllowed (lowerCode c) = true := by
  unfold lowerCode
  by_cases hc : (65 ≤ c && c ≤ 90) = true
  · rw [if_pos hc]
    simp only [Bool.and_eq_true, decide_eq_true_eq] at hc
    unfold isAllowed
    simp only [Bool.or_eq_true, Bool.and_eq_true, decide_eq_true_eq, beq_iff_eq]
    omega
  · rw [if_neg hc]
    exact h

theorem lowerCode_lowerCode (c : Nat) : lowerCode (lowerCode c) = lowerCode c := by
  unfold lowerCode
  by_cases hc : (65 ≤ c && c ≤ 90) = true
  · rw [if_pos hc]
    have hc2 : ¬ ((65 ≤ c + 32 && c + 32 ≤ 90) = true) := by
      simp only [Bool.and_eq_true, decide_eq_true_eq] at hc ⊢
      omega
    rw [if_neg hc2]
  · rw [if_neg hc, if_neg hc]

theorem lower_head_ok {c : Nat}
    (h : (isDigitCode c || c == 45) = false) :
    (isDigitCode (lowerCode c) || lowerCode c == 45) = false := by
  unfold isDigitCode at h ⊢
  unfold lowerCode
  simp only [Bool.or_eq_false_iff, Bool.and_eq_false_iff, decide_eq_false_iff_not,
    beq_eq_false_iff_ne, ne_eq] at h
  by_cases hc : (65 ≤ c && c ≤ 90) = true
  · rw [if_pos hc]
    simp only [Bool.and_eq_true, decide_eq_true_eq] at hc
    simp only [Bool.or_eq_false_iff, Bool.and_eq_false_iff, decide_eq_false_iff_not,
      beq_eq_false_iff_ne, ne_eq]
    omega
  · rw [if_neg hc]
    simp only [Bool.or_eq_false_iff, Bool.and_eq_false_iff, decide_eq_false_iff_not,
      beq_eq_false_iff_ne, ne_eq]
    exact h

theorem map_id_of_forall_mem {α : Type} {l : List α} {f : α → α}
    (h : ∀ x ∈ l, f x = x) : l.map f = l := by
  induction l with
  | nil => rfl
  | cons a t ih =>
    simp only [List.map_cons]
    rw [h a (by simp), ih (fun x hx => h x (by simp [hx]))]

theorem map_subChar_of_allowed {l : List Nat} (h : ∀ x ∈ l, isAllowed x = true) :
    l.map subChar = l :=
  map_id_of_forall_mem (fun x hx => subChar_of_isAllowed (h x hx))

theorem map_lowerCode_idem (l : List Nat) :
    (l.map lowerCode).map lowerCode = l.map lowerCode := by
  apply map_id_of_forall_mem
  intro x hx
  rcases List.mem_map.mp hx with ⟨y, _, rfl⟩
  exact lowerCode_lowerCode y

/-- A non-empty string of allowed characters that is already lowercase and
does not start with a digit or dash is a fixed point of the sanitizer. -/
theorem sanitizeName_of_clean {r : List Nat} (hne : r ≠ [])
    (hall : ∀ x ∈ r, isAllowed x = true)
    (hlow : r.map lowerCode = r)
    (hhead : ∀ c cs, r = c :: cs → (isDigitCode c || c == 45) = false) :
    sanitizeName r = some r := by
  cases r with
  | nil => exact absurd rfl hne
  | cons c cs =>
    have hsub : cs.map subChar = cs :=
      map_subChar_of_allowed (fun x hx => hall x (List.mem_cons_of_mem _ hx))
    have hsubc : subChar c = c := subChar_of_isAllowed (hall c (List.mem_cons_self _ _))
    have hcond := hhead c cs rfl
    simp only [sanitizeName, hsub, hsubc, hcond, Bool.false_eq_true, if_false,
      Option.some.injEq]
    exact hlow

theorem mem_appPrefix_allowed {x : Nat} (hx : x ∈ appPrefix) : isAllowed x = true := by
  have : appPrefix = [97, 112, 112, 45] := by decide
  rw [this] at hx
  simp only [List.mem_cons, List.not_mem_nil, or_false] at hx
  rcases hx with rfl | rfl | rfl | rfl <;> decide

end CharLemmas

/-- C9: name sanitization is idempotent.  `RPMBuilder._sanitize_name`
applied to its own output returns that output unchanged, for every input
string (on the empty string both sides are the Python `IndexError`,
embedded as `none`). -/
theorem sanitizeName_idempotent (name : List Nat) :
    (sanitizeName name).bind sanitizeName = sanitizeName name := by
  cases name with
  | nil => rfl
  | cons c0 rest =>
    rw [show sanitizeName (c0 :: rest) =
        some ((if isDigitCode (subChar c0) || subChar c0 == 45 then
            appPrefix ++ (subChar c0 :: rest.map subChar)
          else subChar c0 :: rest.map subChar).map lowerCode) from rfl]
    rw [Option.some_bind]
    set pre := (if isDigitCode (subChar c0) || subChar c0 == 45 then
        appPrefix ++ (subChar c0 :: rest.map subChar)
      else subChar c0 :: rest.map subChar) with hpre
    have hallpre : ∀ x ∈ pre, isAllowed x = true := by
      intro x hx
      rw [hpre] at hx
      have hbase : ∀ y ∈ subChar c0 :: rest.map subChar, isAllowed y = true := by
        intro y hy
        rcases List.mem_cons.mp hy with rfl | hy
        · exact isAllowed_subChar c0
        · rcases List.mem_map.mp hy with ⟨z, _, rfl⟩
          exact isAllowed_subChar z
      by_cases hcond : (isDigitCode (subChar c0) || subChar c0 == 45) = true
      · rw [if_pos hcond] at hx
        rcases List.mem_append.mp hx with hx | hx
        · exact mem_appPrefix_allowed hx
        · exact hbase x hx
      · rw [if_neg hcond] at hx
        exact hbase x hx
    apply sanitizeName_of_clean
    · have : pre ≠ [] := by
        rw [hpre]
        by_cases hcond : (isDigitCode (subChar c0) || subChar c0 == 45) = true
        · rw [if_pos hcond]
          have : appPrefix = [97, 112, 112, 45] := by decide
          rw [this]
          simp
        · rw [if_neg hcond]
          simp
      simpa [List.map_eq_nil_iff] using this
    · intro x hx
      rcases List.mem_map.mp hx with ⟨y, hy, rfl⟩
      exact isAllowed_lowerCode (hallpre y hy)
    · exact map_lowerCode_idem pre
    · intro c cs hcc
      by_cases hcond : (isDigitCode (subChar c0) || subChar c0 == 45) = true
      · rw [hpre, if_pos hcond] at hcc
        have : appPrefix = [97, 112, 112, 45] := by decide
        rw [this] at hcc
        simp only [List.cons_append, List.map_cons, List.cons.injEq] at hcc
        rw [← hcc.1]
        decide
      · rw [hpre, if_neg hcond] at hcc
        simp only [List.map_cons, List.cons.injEq] at hcc
        rw [← hcc.1]
        exact lower_head_ok (Bool.not_eq_true _ ▸ hcond)

/-- C1 counterexample: `_sanitize_name` does not implement the pipeline the
specification describes.  It does not collapse runs of `-` (input with two
spaces), it replaces `+` although the class in the spec keeps it, and it does
not trim leading/trailing `-` (it prepends the prefix instead). -/
theorem sanitizeName_ne_spec_pipeline :
    sanitizeNameStr "a  b" ≠ some (specSanitizeStr "a  b") ∧
    sanitizeNameStr "a+b" ≠ some (specSanitizeStr "a+b") ∧
    sanitizeNameStr "-x-" ≠ some (specSanitizeStr "-x-") := by
  refine ⟨?_, ?_, ?_⟩ <;> decide

/-- C1 (amended): `_sanitize_name` replaces every character outside
`[a-zA-Z0-9_.-]` (underscore kept, plus replaced) with `-`, performs no
collapsing of repeated `-` and no trimming, prepends the literal `app-`
when the substituted string starts with a digit or `-`, then lowercases;
the quoted examples `"Test App" → "test-app"`, `"1App" → "app-1app"` and
`"App.With.Dots" → "app.with.dots"` all hold. -/
theorem sanitizeName_spec_amended :
    (∀ name, sanitizeName name = specSanitizeAmended name) ∧
    sanitizeNameStr "Test App" = some (strCodes "test-app") ∧
    sanitizeNameStr "1App" = some (strCodes "app-1app") ∧
    sanitizeNameStr "App.With.Dots" = some (strCodes "app.with.dots") := by
  refine ⟨fun name => ?_, by decide, by decide, by decide⟩
  cases name with
  | nil => rfl
  | cons c0 rest =>
    simp only [sanitizeName, specSanitizeAmended, List.map_cons,
      show (fun c : Nat => if isAllowed c then c else 45) = subChar from rfl, subChar]

/-! Section: Icon selection — `RPMBuilder.select_best_icon` (builder.py 85-142)

Icon paths are embedded as code-point lists of the full path string. -/

/-- Final path component (`pathlib.Path.name`): the part after the last
`/` (47). -/
def pathName (p : List Nat) : List Nat :=
  (p.reverse.takeWhile (fun c => c != 47)).reverse

/-- Embedding of `pathlib.PurePath.suffix`: with `i` the index of the last `.` (46) in
the final component, CPython returns `name[i:]` when `0 < i < len - 1`
and the empty string otherwise (so `.DirIcon` and trailing-dot names have
no suffix). -/
def pathSuffix (p : List Nat) : List Nat :=
  let name := pathName p
  let post := (name.reverse.takeWhile (fun c => c != 46)).reverse
  if name.contains 46 && name.length - post.length > 1 && post.length > 0 then
    46 :: post
  else []

/-- Lowered path suffix as used in `select_best_icon`. -/
def suffixLower (p : List Nat) : List Nat := (pathSuffix p).map lowerCode

/-- Test that the lowered path suffix equals `.svg` (builder.py line 101). -/
def isSvg (p : List Nat) : Bool := suffixLower p == strCodes ".svg"

/-- Test that the lowered path suffix equals `.png` (builder.py line 109). -/
def isPng (p : List Nat) : Bool := suffixLower p == strCodes ".png"

/-- Decimal value of a digit run, `int(match.group(1))`. -/
def digitsVal (l : List Nat) : Nat := l.foldl (fun a c => a * 10 + (c - 48)) 0

/-- Model of `re.search` with pattern `(\d+)x\d+` over the full path
string: the leftmost maximal digit run immediately followed by `x` (120)
and another digit; group 1 is that whole run (inner positions of a digit
run fail the same `x` test, so character-by-character scanning realizes
the leftmost-match semantics of the regex). -/
def findSize : List Nat → Option Nat
  | [] => none
  | c :: rest =>
    if isDigitCode c then
      match (c :: rest).dropWhile isDigitCode with
      | 120 :: d :: _ =>
        if isDigitCode d then some (digitsVal ((c :: rest).takeWhile isDigitCode))
        else findSize rest
      | _ => findSize rest
    else findSize rest

/-- Declared size of a PNG candidate; 48 when no `WxH` segment parses. -/
def pngSize (p : List Nat) : Nat := (findSize p).getD 48

/-- First pair carrying the maximal size: the head of the stable Python
`sorted(sized_png_icons, key=lambda x: -x[0])` (builder.py line 123). -/
def selectSized : List (Nat × List Nat) → Option (Nat × List Nat)
  | [] => none
  | x :: rest =>
    match selectSized rest with
    | none => some x
    | some b => if b.1 > x.1 then some b else some x

/-- Embedding of `RPMBuilder.select_best_icon`: first SVG if any; else the largest
declared-size PNG (unsized PNGs count as 48, ties by list order); else
the first candidate of the whole list.  (The `if sized_png_icons` guard in
the source is always true when PNGs exist, since every PNG receives an
entry; the `png_icons[0]` branch below it is dead code.) -/
def selectBestIcon (iconPaths : List (List Nat)) : Option (List Nat) :=
  if iconPaths.isEmpty then none
  else
    match iconPaths.filter isSvg with
    | s :: _ => some s
    | [] =>
      match iconPaths.filter isPng with
      | [] => iconPaths.head?
      | p :: ps =>
        (selectSized ((p :: ps).map (fun q => (pngSize q, q)))).map Prod.snd

example : selectBestIcon [strCodes "a.svg", strCodes "icons/128x128/a.png",
    strCodes "icons/48x48/a.png", strCodes "a.xpm"] = some (strCodes "a.svg") := by decide
example : selectBestIcon [strCodes "icons/128x128/a.png",
    strCodes "icons/48x48/a.png", strCodes "a.xpm"]
      = some (strCodes "icons/128x128/a.png") := by decide
example : selectBestIcon [strCodes "a.xpm"] = some (strCodes "a.xpm") := by decide
example : selectBestIcon [strCodes "a.png", strCodes "icons/64x64/a.png"]
    = some (strCodes "icons/64x64/a.png") := by decide

theorem selectSized_spec {l : List (Nat × List Nat)} (h : l ≠ []) :
    ∃ b, selectSized l = some b ∧ b ∈ l ∧ ∀ y ∈ l, y.1 ≤ b.1 := by
  induction l with
  | nil => exact absurd rfl h
  | cons x rest ih =>
    cases hr : rest with
    | nil =>
      refine ⟨x, by simp [selectSized], by simp, ?_⟩
      intro y hy
      simp only [List.mem_singleton] at hy
      simp [hy]
    | cons z t =>
      obtain ⟨b, hb, hbmem, hbmax⟩ := ih (by simp [hr])
      rw [← hr] at *
      by_cases hcmp : (b.1 > x.1)
      · refine ⟨b, ?_, List.mem_cons_of_mem _ hbmem, ?_⟩
        · simp only [selectSized, hb, if_pos hcmp]
        · intro y hy
          rcases List.mem_cons.mp hy with rfl | hy
          · omega
          · exact hbmax y hy
      · refine ⟨x, ?_, List.mem_cons_self _ _, ?_⟩
        · simp only [selectSized, hb, if_neg hcmp]
        · intro y hy
          rcases List.mem_cons.mp hy with rfl | hy
          · exact le_refl _
          · have := hbmax y hy
            omega

/-- C3 counterexample: non-SVG/PNG candidates are a single tier resolved
by list position, so the default-icon fallback (`.DirIcon`, which has no
path suffix) placed first beats an XPM candidate, contradicting the
claimed strict format ranking `other raster > default icon`. -/
theorem selectBestIcon_fallback_counterexample :
    selectBestIcon [strCodes ".DirIcon", strCodes "a.xpm"] = some (strCodes ".DirIcon") ∧
    strCodes ".DirIcon" ≠ strCodes "a.xpm" := by
  refine ⟨?_, ?_⟩ <;> decide

/-- C3 (amended): `select_best_icon` never returns `none` on a non-empty
candidate list and its result is a candidate; any SVG beats everything
else; with no SVG present, PNGs beat everything else and the chosen PNG
has maximal declared size (unsized PNGs counting as 48); with no SVG and
no PNG, the remaining candidates — XPM, ICO and the default-icon fallback
alike — form one tier and the first-listed candidate wins. -/
theorem selectBestIcon_spec (l : List (List Nat)) (h : l ≠ []) :
    ∃ q, selectBestIcon l = some q ∧ q ∈ l ∧
      ((∃ p ∈ l, isSvg p = true) → isSvg q = true) ∧
      ((∀ p ∈ l, isSvg p = false) →
        ∀ p ∈ l, isPng p = true → isPng q = true ∧ pngSize p ≤ pngSize q) ∧
      ((∀ p ∈ l, isSvg p = false ∧ isPng p = false) → l.head? = some q) := by
  have hne : l.isEmpty = false := by
    cases l with
    | nil => exact absurd rfl h
    | cons a t => rfl
  cases hsvg : l.filter isSvg with
  | cons s t =>
    have hs : s ∈ l ∧ isSvg s = true := by
      have : s ∈ l.filter isSvg := by rw [hsvg]; exact List.mem_cons_self _ _
      exact ⟨(List.mem_filter.mp this).1, (List.mem_filter.mp this).2⟩
    refine ⟨s, ?_, hs.1, fun _ => hs.2, ?_, ?_⟩
    · simp only [selectBestIcon, hne, Bool.false_eq_true, if_false, hsvg]
    · intro hnos
      exact absurd (hnos s hs.1) (by simp [hs.2])
    · intro hnone
      exact absurd (hnone s hs.1).1 (by simp [hs.2])
  | nil =>
    have hnosvg : ∀ p ∈ l, isSvg p = false := by
      intro p hp
      by_cases hb : isSvg p = true
      · have : p ∈ l.filter isSvg := List.mem_filter.mpr ⟨hp, hb⟩
        rw [hsvg] at this
        exact absurd this (List.not_mem_nil p)
      · simpa using hb
    cases hpng : l.filter isPng with
    | nil =>
      have hnopng : ∀ p ∈ l, isPng p = false := by
        intro p hp
        by_cases hb : isPng p = true
        · have : p ∈ l.filter isPng := List.mem_filter.mpr ⟨hp, hb⟩
          rw [hpng] at this
          exact absurd this (List.not_mem_nil p)
        · simpa using hb
      cases l with
      | nil => exact absurd rfl h
      | cons a t =>
        refine ⟨a, ?_, List.mem_cons_self _ _, ?_, ?_, fun _ => rfl⟩
        · simp only [selectBestIcon, hne, Bool.false_eq_true, if_false, hsvg, hpng,
            List.head?_cons]
        · rintro ⟨p, hp, hps⟩
          exact absurd hps (by simp [hnosvg p hp])
        · intro _ p hp hpp
          exact absurd hpp (by simp [hnopng p hp])
    | cons p ps =>
      obtain ⟨b, hb, hbmem, hbmax⟩ :=
        selectSized_spec (l := (p :: ps).map (fun q => (pngSize q, q))) (by simp)
      obtain ⟨q, hqmem, hbq⟩ := List.mem_map.mp hbmem
      have hq : q ∈ l ∧ isPng q = true := by
        have : q ∈ l.filter isPng := by rw [hpng]; exact hqmem
        exact ⟨(List.mem_filter.mp this).1, (List.mem_filter.mp this).2⟩
      refine ⟨q, ?_, hq.1, ?_, ?_, ?_⟩
      · simp only [selectBestIcon, hne, Bool.false_eq_true, if_false, hsvg, hpng, hb,
          Option.map_some]
        rw [← hbq]
        rfl
      · rintro ⟨r, hr, hrs⟩
        exact absurd hrs (by simp [hnosvg r hr])
      · intro _ r hr hrp
        refine ⟨hq.2, ?_⟩
        have hrf : r ∈ l.filter isPng := List.mem_filter.mpr ⟨hr, hrp⟩
        rw [hpng] at hrf
        have := hbmax (pngSize r, r) (List.mem_map.mpr ⟨r, hrf, rfl⟩)
        rw [← hbq] at this
        exact this
      · intro hnone
        exact absurd (hnone q hq.1).2 (by simp [hq.2])

/-- Concrete candidate list exercising `selectBestIcon_spec`. -/
def iconDemoList : List (List Nat) :=
  [strCodes "icons/128x128/a.png", strCodes "icons/48x48/a.png", strCodes "a.xpm"]

/-- Witness for `selectBestIcon_spec` at a concrete candidate list. -/
theorem selectBestIcon_spec_witness :
    iconDemoList ≠ [] ∧
    (∃ q, selectBestIcon iconDemoList = some q ∧ q ∈ iconDemoList ∧
      ((∃ p ∈ iconDemoList, isSvg p = true) → isSvg q = true) ∧
      ((∀ p ∈ iconDemoList, isSvg p = false) →
        ∀ p ∈ iconDemoList, isPng p = true → isPng q = true ∧ pngSize p ≤ pngSize q) ∧
      ((∀ p ∈ iconDemoList, isSvg p = false ∧ isPng p = false) →
        iconDemoList.head? = some q)) :=
  ⟨by decide, selectBestIcon_spec iconDemoList (by decide)⟩

/-! Section: Distribution detection — `DistroProfileManager.detect_current_distro`
(distro_profile.py 87-119)

The parsed `/etc/os-release` fields `ID` and `VERSION_ID` are the inputs
(absent file or missing key = `none`); the loaded profile store is the
list of profile ids (dictionary keys). -/

/-- Embedding of `detect_current_distro`: if `ID` is a known profile id return it;
otherwise, if `VERSION_ID` exists and `ID ++ VERSION_ID` is a known
profile id return that; otherwise return `none`.  (Note the bare-id check
comes first in the source, and there is no hardcoded final fallback.) -/
def detectCurrentDistro (osId osVersionId : Option String)
    (profiles : List String) : Option String :=
  match osId with
  | none => none
  | some distroId =>
    if profiles.contains distroId then some distroId
    else
      match osVersionId with
      | none => none
      | some v =>
        let combined := distroId ++ v
        if profiles.contains combined then some combined else none

/-- C4 counterexample: with profiles `fedora` and `fedora41` loaded and
host identification `ID=fedora`, `VERSION_ID=41`, the code returns the
bare-id profile `fedora`, not the exact id+version profile `fedora41`
that the claim says is matched first; and with no matching profile at all
it returns `none` instead of a hardcoded default id. -/
theorem detectCurrentDistro_counterexample :
    detectCurrentDistro (some "fedora") (some "41") ["fedora41", "fedora"]
      = some "fedora" ∧
    ("fedora" : String) ≠ "fedora41" ∧
    detectCurrentDistro (some "gentoo") (some "2") ["fedora41", "fedora"] = none := by
  refine ⟨?_, ?_, ?_⟩ <;> decide

/-- C4 (amended): `detect_current_distro` matches the bare os-release id
first, then the concatenation id++version, and returns `none` when
neither (or the id itself) is available; it never returns an id absent
from the loaded profiles — unconditionally, with no fallback exception. -/
theorem detectCurrentDistro_spec (osId osVersionId : Option String)
    (profiles : List String) :
    (∀ x, detectCurrentDistro osId osVersionId profiles = some x →
      profiles.contains x = true) ∧
    (∀ i, osId = some i → profiles.contains i = true →
      detectCurrentDistro osId osVersionId profiles = some i) ∧
    (∀ i v, osId = some i → osVersionId = some v → profiles.contains i = false →
      profiles.contains (i ++ v) = true →
      detectCurrentDistro osId osVersionId profiles = some (i ++ v)) ∧
    (∀ i v, osId = some i → osVersionId = some v → profiles.contains i = false →
      profiles.contains (i ++ v) = false →
      detectCurrentDistro osId osVersionId profiles = none) ∧
    (osId = none → detectCurrentDistro osId osVersionId profiles = none) := by
  refine ⟨?_, ?_, ?_, ?_, ?_⟩
  · intro x hx
    cases osId with
    | none => simp [detectCurrentDistro] at hx
    | some i =>
      by_cases hi : profiles.contains i = true
      · simp only [detectCurrentDistro, hi, if_pos, Option.some.injEq] at hx
        rw [← hx]
        exact hi
      · simp only [detectCurrentDistro, hi] at hx
        cases osVersionId with
        | none => simp at hx
        | some v =>
          by_cases hc : profiles.contains (i ++ v) = true
          · simp only [hc, if_pos, Option.some.injEq, Bool.false_eq_true, if_false] at hx
            rw [← hx]
            exact hc
          · simp only [Bool.false_eq_true, if_false,
              Bool.not_eq_true] at hx hc
            rw [hc] at hx
            simp at hx
  · rintro i rfl hi
    have him : i ∈ profiles := by simpa using hi
    simp [detectCurrentDistro, him]
  · rintro i v rfl rfl hi hc
    have him : i ∉ profiles := by simpa using hi
    have hcm : i ++ v ∈ profiles := by simpa using hc
    simp [detectCurrentDistro, him, hcm]
  · rintro i v rfl rfl hi hc
    have him : i ∉ profiles := by simpa using hi
    have hcm : i ++ v ∉ profiles := by simpa using hc
    simp [detectCurrentDistro, him, hcm]
  · rintro rfl
    rfl

/-- Witness for `detectCurrentDistro_spec` at concrete inputs. -/
theorem detectCurrentDistro_spec_witness :
    (some "fedora" : Option String) = some "fedora" ∧
    (["fedora41"].contains ("fedora" : String)) = false ∧
    (["fedora41"].contains ("fedora" ++ "41")) = true ∧
    detectCurrentDistro (some "fedora") (some "41") ["fedora41"] = some ("fedora" ++ "41") :=
  ⟨rfl, by decide, by decide,
    ((detectCurrentDistro_spec (some "fedora") (some "41") ["fedora41"]).2.2.1)
      "fedora" "41" rfl rfl (by decide) (by decide)⟩

/-! Section: Artifact location after the build-tool run

`RPMBuilder.build` (builder.py 482-520) and legacy `RPMBuilder.build_rpm`
(rpm_utils.py 497-515).  The `RPMS` output of the build tree is embedded as a
listing of (architecture subdirectory, filename) pairs; glob patterns
`prefix*.rpm` are prefix/suffix tests on the filename code points. -/

/-- Test that `fname` matches the glob `pre*.rpm` (`*` any characters, none too). -/
def globPrefixRpm (pre fname : String) : Bool :=
  let f := strCodes fname
  let p := strCodes pre
  (f.take p.length == p) && (f.drop (f.length - 4) == strCodes ".rpm") &&
    (p.length + 4 ≤ f.length)

/-- Test that `fname` matches `*.rpm`. -/
def isRpmFile (fname : String) : Bool :=
  let f := strCodes fname
  f.drop (f.length - 4) == strCodes ".rpm"

/-- Embedding of the glob on builder.py line 496 (pattern rpm_name then star then .rpm):
files directly under `RPMS/x86_64` whose name starts with the sanitized
name — the version is not part of the pattern. -/
def builderMatches (rpmName : String) (rpmsTree : List (String × String)) : List String :=
  (rpmsTree.filter (fun e => e.1 == "x86_64" && globPrefixRpm rpmName e.2)).map Prod.snd

/-- The artifact `RPMBuilder.build` settles on: the first match of its
single glob, `none` meaning the `RuntimeError("No RPM package found
after build")` path — there is no fallback search. -/
def builderFindRpm (rpmName : String) (rpmsTree : List (String × String)) : Option String :=
  (builderMatches rpmName rpmsTree).head?

/-- Legacy strict glob `RPMS/x86_64/{rpm_name}-{app_version}*.rpm`
(rpm_utils.py line 500). -/
def legacyStrictMatches (rpmName appVersion : String)
    (rpmsTree : List (String × String)) : List String :=
  (rpmsTree.filter (fun e =>
    e.1 == "x86_64" && globPrefixRpm (rpmName ++ "-" ++ appVersion) e.2)).map Prod.snd

/-- Legacy fallback glob `RPMS/**/*.rpm` (rpm_utils.py line 507): any rpm
file anywhere under the output tree. -/
def legacyAnyRpms (rpmsTree : List (String × String)) : List String :=
  (rpmsTree.filter (fun e => isRpmFile e.2)).map Prod.snd

/-- Legacy `build_rpm` artifact location: the strict glob first, and only
when it is empty the recursive fallback; `none` is the
`FileNotFoundError` path, reached only when both globs are empty. -/
def legacyFindRpm (rpmName appVersion : String)
    (rpmsTree : List (String × String)) : Option String :=
  match (legacyStrictMatches rpmName appVersion rpmsTree).head? with
  | some f => some f
  | none => (legacyAnyRpms rpmsTree).head?

/-- C5 counterexample: the canonical `RPMBuilder.build` has no fallback
search and its glob omits the version.  With the only produced package in
`RPMS/noarch`, it declares artifact-not-found although a package exists
under the output tree (the legacy fallback would have returned it); and
with a wrong-version package in `RPMS/x86_64` its glob still matches. -/
theorem builder_artifact_counterexample :
    builderFindRpm "demo" [("noarch", "demo-1.0-1.noarch.rpm")] = none ∧
    isRpmFile "demo-1.0-1.noarch.rpm" = true ∧
    legacyFindRpm "demo" "1.0" [("noarch", "demo-1.0-1.noarch.rpm")]
      = some "demo-1.0-1.noarch.rpm" ∧
    builderFindRpm "demo" [("x86_64", "demo-9.9-1.x86_64.rpm")]
      = some "demo-9.9-1.x86_64.rpm" := by
  refine ⟨?_, ?_, ?_, ?_⟩ <;> decide

/-- C5 (amended): only the legacy `build_rpm` implements the claimed
behaviour — strict `{name}-{version}*` glob in `RPMS/x86_64` first, the
recursive any-package fallback only when that is empty, and
artifact-not-found only when both are empty.  The newer `RPMBuilder.build`
performs a single `{name}*` glob in `RPMS/x86_64` (no version, no
fallback) and declares failure exactly when that one glob is empty. -/
theorem artifact_location_spec (rpmName appVersion : String)
    (rpmsTree : List (String × String)) :
    (∀ f, (legacyStrictMatches rpmName appVersion rpmsTree).head? = some f →
      legacyFindRpm rpmName appVersion rpmsTree = some f) ∧
    (legacyStrictMatches rpmName appVersion rpmsTree = [] →
      legacyFindRpm rpmName appVersion rpmsTree = (legacyAnyRpms rpmsTree).head?) ∧
    (legacyFindRpm rpmName appVersion rpmsTree = none ↔
      legacyStrictMatches rpmName appVersion rpmsTree = [] ∧
        legacyAnyRpms rpmsTree = []) ∧
    (builderFindRpm rpmName rpmsTree = none ↔ builderMatches rpmName rpmsTree = []) := by
  refine ⟨?_, ?_, ?_, ?_⟩
  · intro f hf
    simp [legacyFindRpm, hf]
  · intro hs
    simp [legacyFindRpm, hs]
  · constructor
    · intro h
      cases hs : (legacyStrictMatches rpmName appVersion rpmsTree).head? with
      | some f => simp [legacyFindRpm, hs] at h
      | none =>
        refine ⟨List.head?_eq_none_iff.mp hs, ?_⟩
        simp only [legacyFindRpm, hs] at h
        exact List.head?_eq_none_iff.mp h
    · rintro ⟨hs, ha⟩
      simp [legacyFindRpm, hs, ha]
  · constructor
    · intro h
      exact List.head?_eq_none_iff.mp h
    · intro h
      simp [builderFindRpm, h]

/-- Witness for `artifact_location_spec` at a concrete output tree. -/
theorem artifact_location_spec_witness :
    legacyStrictMatches "demo" "1.0" [("noarch", "other-2.0-1.noarch.rpm")] = [] ∧
    legacyFindRpm "demo" "1.0" [("noarch", "other-2.0-1.noarch.rpm")]
      = (legacyAnyRpms [("noarch", "other-2.0-1.noarch.rpm")]).head? :=
  ⟨by decide,
    (artifact_location_spec "demo" "1.0" [("noarch", "other-2.0-1.noarch.rpm")]).2.1
      (by decide)⟩

/-! Section: Dependency analysis — `DependencyAnalyzer` (dependency_analyzer.py)

`analyze_dependencies` (lines 188-244) works on Python sets; a set is
embedded as a duplicate-free list built by first-occurrence insertion.
The host-dependent pieces are inputs: the system-library baseline, the
library names collected by the `ldd` scans, and the `dnf provides`
oracle. -/

/-- Embedding of `set.add`: keep the list duplicate-free, append new elements. -/
def insertSet (s : List String) (x : String) : List String :=
  if s.contains x then s else s ++ [x]

/-- The set of all scanned library names (`all_dependencies`). -/
def setOf (l : List String) : List String := l.foldl insertSet []

/-- Embedding of the set difference `all_dependencies - self.system_libs` (line 222). -/
def externalLibraries (systemLibs detected : List String) : List String :=
  (setOf detected).filter (fun l => !(systemLibs.contains l))

/-- Embedding of `package_dependencies` (lines 225-229): map each external library
through `_map_lib_to_package`; a `None` answer contributes nothing. -/
def packageDependencies (systemLibs detected : List String)
    (provides : String → Option String) : List String :=
  (externalLibraries systemLibs detected).foldl
    (fun acc lib =>
      match provides lib with
      | some p => insertSet acc p
      | none => acc) []

/-- Embedding of the `analyze_dependencies` result (lines 231-244): one entry per
supported distro family, all carrying the same package list. -/
def analyzeDependencies (systemLibs detected : List String)
    (provides : String → Option String) : List (String × List String) :=
  let pkgs := packageDependencies systemLibs detected provides
  [("fedora", pkgs), ("rhel", pkgs), ("centos", pkgs)]

/-- Embedding of `convert_dependencies_to_rpm_requires` (lines 246-268): empty when
nothing was analyzed or when the distro id has no entry, otherwise a copy
of the entry. -/
def convertDependenciesToRpmRequires (deps : List (String × List String))
    (distroId : String) : List String :=
  if deps.isEmpty then []
  else
    match deps.lookup distroId with
    | none => []
    | some pkgs => pkgs

theorem mem_insertSet {s : List String} {x p : String} (h : p ∈ insertSet s x) :
    p ∈ s ∨ p = x := by
  unfold insertSet at h
  by_cases hc : s.contains x = true
  · rw [if_pos hc] at h
    exact Or.inl h
  · rw [if_neg hc] at h
    rcases List.mem_append.mp h with h | h
    · exact Or.inl h
    · exact Or.inr (List.mem_singleton.mp h)

theorem nodup_insertSet {s : List String} (h : s.Nodup) (x : String) :
    (insertSet s x).Nodup := by
  unfold insertSet
  by_cases hc : s.contains x = true
  · rw [if_pos hc]
    exact h
  · rw [if_neg hc]
    have hx : x ∉ s := by simpa using hc
    simp [List.nodup_append, h, hx]

theorem packageDeps_fold_invariant (provides : String → Option String) :
    ∀ (ext acc : List String), acc.Nodup →
      (List.foldl (fun acc lib =>
        match provides lib with
        | some p => insertSet acc p
        | none => acc) acc ext).Nodup ∧
      ∀ p ∈ (List.foldl (fun acc lib =>
        match provides lib with
        | some p => insertSet acc p
        | none => acc) acc ext),
        p ∈ acc ∨ ∃ lib ∈ ext, provides lib = some p := by
  intro ext
  induction ext with
  | nil =>
    intro acc hacc
    exact ⟨hacc, fun p hp => Or.inl hp⟩
  | cons lib rest ih =>
    intro acc hacc
    simp only [List.foldl_cons]
    cases hpr : provides lib with
    | none =>
      obtain ⟨h1, h2⟩ := ih acc hacc
      refine ⟨by simpa [hpr] using h1, ?_⟩
      intro p hp
      rcases h2 p (by simpa [hpr] using hp) with hp | ⟨l, hl, hlp⟩
      · exact Or.inl hp
      · exact Or.inr ⟨l, List.mem_cons_of_mem _ hl, hlp⟩
    | some q =>
      obtain ⟨h1, h2⟩ := ih (insertSet acc q) (nodup_insertSet hacc q)
      refine ⟨by simpa [hpr] using h1, ?_⟩
      intro p hp
      rcases h2 p (by simpa [hpr] using hp) with hp | ⟨l, hl, hlp⟩
      · rcases mem_insertSet hp with hp | rfl
        · exact Or.inl hp
        · exact Or.inr ⟨lib, List.mem_cons_self _ _, hpr⟩
      · exact Or.inr ⟨l, List.mem_cons_of_mem _ hl, hlp⟩

/-- C6: system-baseline libraries never count as external; unresolvable
external libraries contribute nothing (and cause no error); the resolved
requires list has no duplicate package names, and every entry comes from
a resolvable external library; a distro id with no entry yields the empty
list rather than an error. -/
theorem dependency_analysis_spec (systemLibs detected : List String)
    (provides : String → Option String) (distroId : String) :
    (∀ lib ∈ systemLibs, lib ∉ externalLibraries systemLibs detected) ∧
    (convertDependenciesToRpmRequires
        (analyzeDependencies systemLibs detected provides) distroId).Nodup ∧
    (∀ p ∈ convertDependenciesToRpmRequires
        (analyzeDependencies systemLibs detected provides) distroId,
      ∃ lib ∈ externalLibraries systemLibs detected, provides lib = some p) ∧
    (distroId ≠ "fedora" → distroId ≠ "rhel" → distroId ≠ "centos" →
      convertDependenciesToRpmRequires
        (analyzeDependencies systemLibs detected provides) distroId = []) := by
  have hpkg := packageDeps_fold_invariant provides
    (externalLibraries systemLibs detected) [] List.nodup_nil
  have hconv : ∀ pkgs,
      convertDependenciesToRpmRequires
        [("fedora", pkgs), ("rhel", pkgs), ("centos", pkgs)] distroId = [] ∨
      convertDependenciesToRpmRequires
        [("fedora", pkgs), ("rhel", pkgs), ("centos", pkgs)] distroId = pkgs := by
    intro pkgs
    by_cases h1 : (distroId == "fedora") = true
    · right; simp [convertDependenciesToRpmRequires, List.lookup, h1]
    · by_cases h2 : (distroId == "rhel") = true
      · right; simp [convertDependenciesToRpmRequires, List.lookup, h1, h2]
      · by_cases h3 : (distroId == "centos") = true
        · right; simp [convertDependenciesToRpmRequires, List.lookup, h1, h2, h3]
        · left; simp [convertDependenciesToRpmRequires, List.lookup, h1, h2, h3]
  refine ⟨?_, ?_, ?_, ?_⟩
  · intro lib hlib hmem
    have hf := (List.mem_filter.mp hmem).2
    simp only [Bool.not_eq_eq_eq_not, Bool.not_true] at hf
    have hnot : lib ∉ systemLibs := by simpa using hf
    exact hnot hlib
  · rcases hconv (packageDependencies systemLibs detected provides) with h | h
    · rw [show analyzeDependencies systemLibs detected provides =
          [("fedora", packageDependencies systemLibs detected provides),
           ("rhel", packageDependencies systemLibs detected provides),
           ("centos", packageDependencies systemLibs detected provides)] from rfl, h]
      exact List.nodup_nil
    · rw [show analyzeDependencies systemLibs detected provides =
          [("fedora", packageDependencies systemLibs detected provides),
           ("rhel", packageDependencies systemLibs detected provides),
           ("centos", packageDependencies systemLibs detected provides)] from rfl, h]
      exact hpkg.1
  · intro p hp
    rw [show analyzeDependencies systemLibs detected provides =
        [("fedora", packageDependencies systemLibs detected provides),
         ("rhel", packageDependencies systemLibs detected provides),
         ("centos", packageDependencies systemLibs detected provides)] from rfl] at hp
    rcases hconv (packageDependencies systemLibs detected provides) with h | h
    · rw [h] at hp
      exact absurd hp (List.not_mem_nil p)
    · rw [h] at hp
      rcases hpkg.2 p hp with hp | hp
      · exact absurd hp (List.not_mem_nil p)
      · exact hp
  · intro h1 h2 h3
    have e1 : (distroId == "fedora") = false := beq_eq_false_iff_ne.mpr h1
    have e2 : (distroId == "rhel") = false := beq_eq_false_iff_ne.mpr h2
    have e3 : (distroId == "centos") = false := beq_eq_false_iff_ne.mpr h3
    simp [convertDependenciesToRpmRequires, analyzeDependencies, List.lookup, e1, e2, e3]

/-- The `dnf provides` oracle used by the C6 witness. -/
def demoProvides : String → Option String :=
  fun lib => if lib == "libfoo.so.1" then some "foo" else none

/-- Witness for `dependency_analysis_spec` at concrete inputs: one
baseline library, one resolvable external library, one unresolvable
external library, and an unknown distro family. -/
theorem dependency_analysis_spec_witness :
    ("libc.so.6" : String) ∈ ["libc.so.6"] ∧
    ("libc.so.6" : String) ∉
      externalLibraries ["libc.so.6"] ["libc.so.6", "libfoo.so.1", "libbar.so.2"] ∧
    convertDependenciesToRpmRequires
      (analyzeDependencies ["libc.so.6"] ["libc.so.6", "libfoo.so.1", "libbar.so.2"]
        demoProvides) "debian" = [] :=
  ⟨by decide,
    (dependency_analysis_spec ["libc.so.6"] ["libc.so.6", "libfoo.so.1", "libbar.so.2"]
      demoProvides "debian").1 "libc.so.6" (by decide),
    (dependency_analysis_spec ["libc.so.6"] ["libc.so.6", "libfoo.so.1", "libbar.so.2"]
      demoProvides "debian").2.2.2 (by decide) (by decide) (by decide)⟩

/-! Section: Builder construction — `RPMBuilder.__init__` (builder.py 28-83) -/

/-- State established by a successful `RPMBuilder.__init__`: no build
state yet (`rpm_build_dir = None`), output directory created
(`os.makedirs(..., exist_ok=True)`), name sanitized. -/
structure RPMBuilderState where
  appName : String
  appVersion : String
  rpmName : List Nat
  outputDirCreated : Bool
  rpmBuildDir : Option String
deriving DecidableEq

/-- Embedding of `RPMBuilder.__init__`: `ValueError` when the name or version is empty
or the extracted directory does not exist (checked in that order, before
any directory is created); otherwise the builder state is set up and the
output directory is created if absent. -/
def rpmBuilderInit (appName appVersion : String) (extractedDirExists : Bool) :
    Except String RPMBuilderState :=
  if appName = "" then .error "Application name cannot be empty"
  else if appVersion = "" then .error "Application version cannot be empty"
  else
    let rpmName := (sanitizeName (strCodes appName)).getD []
    if extractedDirExists = false then
      .error "Extracted directory does not exist"
    else
      .ok ⟨appName, appVersion, rpmName, true, none⟩

theorem strCodes_ne_nil {s : String} (h : s ≠ "") : strCodes s ≠ [] := by
  intro hl
  apply h
  unfold strCodes at hl
  rw [List.map_eq_nil_iff] at hl
  cases s with
  | mk data =>
    simp only [String.toList] at hl
    simp [hl]

theorem sanitizeName_isSome_of_ne_nil {l : List Nat} (h : l ≠ []) :
    ∃ r, sanitizeName l = some r := by
  cases l with
  | nil => exact absurd rfl h
  | cons c cs => exact ⟨_, rfl⟩

/-- C10: construction fails with `ValueError` exactly when the name is
empty, the version is empty, or the extracted directory is missing, and
an error creates no build state; on every other input construction
succeeds, creates the output directory, records the sanitized name and
leaves no temporary build directory allocated. -/
theorem rpmBuilderInit_spec (appName appVersion : String) (extractedDirExists : Bool) :
    ((∃ e, rpmBuilderInit appName appVersion extractedDirExists = Except.error e) ↔
      (appName = "" ∨ appVersion = "" ∨ extractedDirExists = false)) ∧
    (∀ st, rpmBuilderInit appName appVersion extractedDirExists = Except.ok st →
      st.outputDirCreated = true ∧ st.rpmBuildDir = none ∧
      st.appName = appName ∧ st.appVersion = appVersion ∧
      some st.rpmName = sanitizeName (strCodes appName)) := by
  by_cases h1 : appName = ""
  · refine ⟨⟨fun _ => Or.inl h1,
      fun _ => ⟨"Application name cannot be empty", by simp [rpmBuilderInit, h1]⟩⟩, ?_⟩
    intro st hst
    simp [rpmBuilderInit, h1] at hst
  · by_cases h2 : appVersion = ""
    · refine ⟨⟨fun _ => Or.inr (Or.inl h2),
        fun _ => ⟨"Application version cannot be empty", by simp [rpmBuilderInit, h1, h2]⟩⟩, ?_⟩
      intro st hst
      simp [rpmBuilderInit, h1, h2] at hst
    · by_cases h3 : extractedDirExists = false
      · refine ⟨⟨fun _ => Or.inr (Or.inr h3),
          fun _ => ⟨"Extracted directory does not exist",
            by simp [rpmBuilderInit, h1, h2, h3]⟩⟩, ?_⟩
        intro st hst
        simp [rpmBuilderInit, h1, h2, h3] at hst
      · constructor
        · constructor
          · rintro ⟨e, he⟩
            simp [rpmBuilderInit, h1, h2, h3] at he
          · rintro (h | h | h)
            · exact absurd h h1
            · exact absurd h h2
            · exact absurd h h3
        · intro st hst
          simp [rpmBuilderInit, h1, h2, h3] at hst
          obtain ⟨r, hr⟩ := sanitizeName_isSome_of_ne_nil (strCodes_ne_nil h1)
          rw [← hst]
          simp [hr]

/-- Witness for `rpmBuilderInit_spec`: a valid construction and an
empty-name rejection, both concrete. -/
theorem rpmBuilderInit_spec_witness :
    (∀ st, rpmBuilderInit "Demo" "1.0.0" true = Except.ok st →
      st.outputDirCreated = true ∧ st.rpmBuildDir = none ∧
      st.appName = "Demo" ∧ st.appVersion = "1.0.0" ∧
      some st.rpmName = sanitizeName (strCodes "Demo")) ∧
    ((∃ e, rpmBuilderInit "" "1.0.0" true = Except.error e) ↔
      (("" : String) = "" ∨ ("1.0.0" : String) = "" ∨ true = false)) :=
  ⟨(rpmBuilderInit_spec "Demo" "1.0.0" true).2,
    (rpmBuilderInit_spec "" "1.0.0" true).1⟩

/-! Section: Top-level conversion — `AppImage2RPMController.convert_appimage`
(controller.py 57-245)

The controller is modelled over the observable outcomes of its
collaborators.  One fact is fixed by the source rather than by the
environment: `DistroProfileManager` (distro_profile.py) defines no
`create_rpm_macros` method — that method exists only on the legacy
manager in dependency_utils.py — so the attribute access on line 115
always raises `AttributeError` inside the `try` block. -/

/-- The structured result dictionary of `convert_appimage`. -/
structure ConversionResult where
  success : Bool
  message : String
  rpmPath : Option String
deriving DecidableEq

/-- Collaborator outcomes a conversion run can encounter. -/
structure ControllerEnv where
  distroProfileArg : Option String
  detectResult : Option String
  profileIds : List String
  extractResult : Except String Unit
  metadataName : String
  metadataVersion : String
  extractedDirExists : Bool
  buildResult : Except String String

/-- The attribute access `self.profile_manager.create_rpm_macros(...)`
(controller.py line 115): the class has no such attribute, so it raises. -/
def createRpmMacrosCall : Except String (Option String) :=
  Except.error "DistroProfileManager object has no attribute create_rpm_macros"

/-- The `try` block of `convert_appimage` (controller.py 88-238): profile
resolution with its structured early return, the macros call, and — dead
in the shipped code because the macros call always raises — extraction,
builder construction and build. -/
def convertAppimageBody (env : ControllerEnv) : Except String ConversionResult :=
  let distroProfile : Option String :=
    match env.distroProfileArg with
    | some d => some d
    | none => env.detectResult
  match distroProfile with
  | none => Except.ok ⟨false, "Unsupported distribution profile: None", none⟩
  | some d =>
    if env.profileIds.contains d = false then
      Except.ok ⟨false, "Unsupported distribution profile: " ++ d, none⟩
    else
      match createRpmMacrosCall with
      | Except.error e => Except.error e
      | Except.ok _ =>
        match env.extractResult with
        | Except.error e => Except.error e
        | Except.ok _ =>
          match rpmBuilderInit env.metadataName env.metadataVersion
              env.extractedDirExists with
          | Except.error e => Except.error e
          | Except.ok _ =>
            match env.buildResult with
            | Except.error e => Except.error e
            | Except.ok rpmPath =>
              Except.ok ⟨true, "RPM package created successfully", some rpmPath⟩

/-- Embedding of `convert_appimage`: the `try`/`except Exception` wrapper turning any
raised exception into a structured failure result (controller.py
240-245). -/
def convertAppimage (env : ControllerEnv) : ConversionResult :=
  match convertAppimageBody env with
  | Except.ok r => r
  | Except.error e => ⟨false, "Error: " ++ e, none⟩

/-- The C2 demo scenario: profile available, extraction of the demo tree
fine, metadata `Demo`/supplied version, builder able to produce an
artifact whose name contains `demo` and the version. -/
def demoEnv : ControllerEnv :=
  { distroProfileArg := some "fedora41"
  , detectResult := some "fedora41"
  , profileIds := ["fedora41"]
  , extractResult := Except.ok ()
  , metadataName := "Demo"
  , metadataVersion := "1.0.0"
  , extractedDirExists := true
  , buildResult := Except.ok "demo-1.0.0-1.fc41.x86_64.rpm" }

/-- C2: the claimed end-to-end success is impossible — `convert_appimage`
returns `success = false` on every input, because the profile-found path
always hits the missing `create_rpm_macros` attribute and the other path
is the unsupported-profile failure.  On the demo scenario the result is
the `AttributeError` wrapped as a structured failure. -/
theorem convertAppimage_never_succeeds :
    (∀ env, (convertAppimage env).success = false) ∧
    convertAppimage demoEnv =
      ⟨false,
        "Error: DistroProfileManager object has no attribute create_rpm_macros",
        none⟩ := by
  constructor
  · intro env
    unfold convertAppimage convertAppimageBody
    cases env.distroProfileArg with
    | none =>
      cases env.detectResult with
      | none => rfl
      | some d =>
        dsimp only
        by_cases hm : env.profileIds.contains d = false
        · rw [if_pos hm]
        · rw [if_neg hm]
          rfl
    | some d =>
      dsimp only
      by_cases hm : env.profileIds.contains d = false
      · rw [if_pos hm]
      · rw [if_neg hm]
        rfl
  · rfl

theorem string_append_ne_empty {a : String} (b : String) (h : a ≠ "") :
    a ++ b ≠ "" := by
  intro he
  apply h
  have hd := congrArg String.data he
  rw [String.data_append] at hd
  have ha : a.data = [] := (List.append_eq_nil.mp hd).1
  cases a with
  | mk data =>
    simp only at ha
    simp [ha]

/-- C8: every exception arising inside the pipeline body is returned as a
structured failure `success = false` with the human-readable
`"Error: ..."` message rather than propagated; a body that completes
returns its structured result unchanged; and the message of every result
is non-empty. -/
theorem convertAppimage_structured (env : ControllerEnv) :
    (∀ e, convertAppimageBody env = Except.error e →
      convertAppimage env = ⟨false, "Error: " ++ e, none⟩) ∧
    (∀ r, convertAppimageBody env = Except.ok r → convertAppimage env = r) ∧
    (convertAppimage env).message ≠ "" := by
  refine ⟨?_, ?_, ?_⟩
  · intro e he
    unfold convertAppimage
    rw [he]
  · intro r hr
    unfold convertAppimage
    rw [hr]
  · unfold convertAppimage convertAppimageBody
    cases env.distroProfileArg with
    | none =>
      cases env.detectResult with
      | none =>
        dsimp only
        decide
      | some d =>
        dsimp only
        by_cases hm : env.profileIds.contains d = false
        · rw [if_pos hm]
          exact string_append_ne_empty d (by decide)
        · rw [if_neg hm]
          dsimp only [createRpmMacrosCall]
          decide
    | some d =>
      dsimp only
      by_cases hm : env.profileIds.contains d = false
      · rw [if_pos hm]
        exact string_append_ne_empty d (by decide)
      · rw [if_neg hm]
        dsimp only [createRpmMacrosCall]
        decide

/-- Witness for `convertAppimage_structured`: the body at the demo environment
raises the missing-attribute exception and the wrapper reports it. -/
theorem convertAppimage_structured_witness :
    convertAppimageBody demoEnv =
      Except.error "DistroProfileManager object has no attribute create_rpm_macros" ∧
    convertAppimage demoEnv =
      ⟨false,
        "Error: DistroProfileManager object has no attribute create_rpm_macros",
        none⟩ :=
  ⟨rfl, (convertAppimage_structured demoEnv).1
    "DistroProfileManager object has no attribute create_rpm_macros" rfl⟩

/-! Section: Temporary-directory lifecycle (C7)

Two conversion-run shapes exist in the repository.  The canonical
`RPMBuilder.build` (builder.py 448-532) wraps its body in
`try/except/finally` with `_cleanup` in the `finally`, so its temporary
build tree is removed on every path.  The legacy `ConversionThread.run`
(appimage2rpm.py 49-210, repository publishing disabled) creates the
extraction directory via the legacy extractor (appimage_utils.py, which
removes it itself when extraction fails) and removes both directories
only on the straight-line path before emitting the result; its
`except` handler performs no cleanup.  (The canonical controller never
creates any temporary directory: every run fails before extraction, see
`convertAppimage`.)  The observable state is which of the two temporary
directories still exists when the run ends. -/

/-- Which temporary directories of one conversion run are on disk. -/
structure TempDirs where
  extractDir : Bool
  buildDir : Bool
deriving DecidableEq

/-- Environment of one canonical `RPMBuilder.build` call. -/
structure BuildEnv where
  rpmbuildOk : Bool
  rpmbuildErr : String
  rpmName : String
  rpmsTree : List (String × String)

/-- Embedding of `RPMBuilder.build`: `prepare_build_dir` creates the temporary build
tree; the body either fails (`rpmbuild` non-zero, converted to
`RuntimeError` carrying the stderr of the tool), fails with
artifact-not-found, or
copies the artifact out; the `finally` block always runs `_cleanup`,
removing the tree.  Result: the build outcome and whether the build tree
is still on disk afterwards. -/
def builderBuild (env : BuildEnv) : Except String String × Bool :=
  let duringBody : Bool := true
  let body : Except String String :=
    if env.rpmbuildOk = false then
      Except.error ("RPM build failed: " ++ env.rpmbuildErr)
    else
      match builderFindRpm env.rpmName env.rpmsTree with
      | none => Except.error "No RPM package found after build"
      | some f => Except.ok f
  let afterCleanup : Bool := duringBody && false
  (body, afterCleanup)

/-- Environment of one legacy `ConversionThread.run`. -/
structure LegacyEnv where
  profileFound : Bool
  extractOk : Bool
  builderInitOk : Bool
  buildFindsRpm : Bool

/-- Legacy `ConversionThread.run`, publishing disabled: profile lookup
(early structured failure), extraction (the legacy extractor removes its
own directory and re-raises when extraction fails), legacy
`RPMBuilder.__init__` (a `ValueError` lands in the `except` handler,
which performs no cleanup), `build_rpm` (never raises; returns `None` on
failure), then — only on this straight-line path — `extractor.cleanup()`
and `builder.cleanup()`.  Result: the emitted success flag and the
directories left on disk. -/
def legacyRun (env : LegacyEnv) : Bool × TempDirs :=
  if env.profileFound = false then
    (false, ⟨false, false⟩)
  else if env.extractOk = false then
    (false, ⟨false, false⟩)
  else if env.builderInitOk = false then
    (false, ⟨true, false⟩)
  else
    let rpmFound := env.buildFindsRpm
    (rpmFound, ⟨false, false⟩)

/-- C7 counterexample: a legacy conversion run whose builder construction
raises after a successful extraction (for instance an empty metadata
name) ends in failure with the extraction temporary directory still on
disk — the claimed after-any-run cleanup invariant does not hold. -/
theorem cleanup_counterexample :
    legacyRun ⟨true, true, false, true⟩ = (false, ⟨true, false⟩) ∧
    (legacyRun ⟨true, true, false, true⟩).2.extractDir = true := by
  refine ⟨?_, ?_⟩ <;> decide

/-- C7 (amended): the temporary build tree is always removed — the
canonical `RPMBuilder.build` deletes it in `finally` on success and
failure alike, and the legacy run never leaves one; the extraction
directory of a legacy run is removed on the success path, on the plain
build-failure path and on extraction failure, and is left on disk
exactly when an exception (such as the builder-construction `ValueError`)
aborts the run after a successful extraction. -/
theorem cleanup_spec (benv : BuildEnv) (lenv : LegacyEnv) :
    (builderBuild benv).2 = false ∧
    (legacyRun lenv).2.buildDir = false ∧
    ((legacyRun lenv).2.extractDir = true ↔
      lenv.profileFound = true ∧ lenv.extractOk = true ∧
        lenv.builderInitOk = false) := by
  refine ⟨rfl, ?_, ?_⟩
  · unfold legacyRun
    by_cases h1 : lenv.profileFound = false
    · rw [if_pos h1]
    · rw [if_neg h1]
      by_cases h2 : lenv.extractOk = false
      · rw [if_pos h2]
      · rw [if_neg h2]
        by_cases h3 : lenv.builderInitOk = false
        · rw [if_pos h3]
        · rw [if_neg h3]
  · unfold legacyRun
    by_cases h1 : lenv.profileFound = false
    · rw [if_pos h1]
      simp [h1]
    · rw [if_neg h1]
      by_cases h2 : lenv.extractOk = false
      · rw [if_pos h2]
        simp [h2]
      · rw [if_neg h2]
        by_cases h3 : lenv.builderInitOk = false
        · rw [if_pos h3]
          simp only [Bool.not_eq_false] at h1 h2
          simp [h1, h2, h3]
        · rw [if_neg h3]
          simp only [Bool.not_eq_false] at h3
          simp [h3]

/-- Witness for `cleanup_spec` at concrete environments: a successful
build run and a fully successful legacy run leave nothing behind. -/
theorem cleanup_spec_witness :
    (builderBuild ⟨true, "", "demo", [("x86_64", "demo-1.0-1.x86_64.rpm")]⟩).2 = false ∧
    (legacyRun ⟨true, true, true, true⟩).2.buildDir = false ∧
    ((legacyRun ⟨true, true, true, true⟩).2.extractDir = true ↔
      (true = true ∧ true = true ∧ true = false)) :=
  cleanup_spec ⟨true, "", "demo", [("x86_64", "demo-1.0-1.x86_64.rpm")]⟩
    ⟨true, true, true, true⟩

end AppImage2RPM
